import Mathlib

/-!
Verification of the rate-limiter core against its specification.

Each section embeds one component of the TypeScript source as executable
Lean definitions over exact rational arithmetic, and the theorems at the
end of the file settle the specification claims about those components.
-/

namespace RateLimiter

/-!
### Atomic token-bucket primitive

Embedding of TOKEN_BUCKET_LUA_SCRIPT (src/core/lua-scripts.ts, lines
44-113).  Lua numbers are modelled as rationals; the Redis hash held
under the one bucket key is modelled as an optional pair of fields.
The key TTL refresh (EXPIRE) sits under the same `allowed == 1` guard
as HMSET and has no other observable effect in this model.
-/

structure BucketState where
  tokens : ℚ
  last_refill_ms : ℚ
  deriving Repr, DecidableEq

structure TBResult where
  allowed : ℕ
  state : ℕ
  tokens : ℚ
  usage_pct : ℚ
  deriving Repr, DecidableEq

/-- Lines 53-66 of the script: read the two hash fields, defaulting to a
full bucket stamped at the current time, then refill for the elapsed
time (capped at capacity); `last_refill_ms` advances only when the
elapsed time is positive. -/
def refillPhase (capacity refill_rate now_ms : ℚ) (st : Option BucketState) : ℚ × ℚ :=
  let current_tokens := match st with | none => capacity | some b => b.tokens
  let last_refill_ms := match st with | none => now_ms | some b => b.last_refill_ms
  let elapsed_seconds := (now_ms - last_refill_ms) / 1000
  if 0 < elapsed_seconds then
    (min capacity (current_tokens + elapsed_seconds * refill_rate), now_ms)
  else
    (current_tokens, last_refill_ms)

/-- Lines 44-113 of the script, one invocation: refill, classify against
the thresholds, consume a token when allowed, refund on post-consumption
hard overshoot, persist only when allowed.  Returns the reply tuple
(allowed, state, tokens, usage_pct) and the post-call store content. -/
def tokenBucketScript (capacity refill_rate now_ms soft_pct hard_pct : ℚ)
    (st : Option BucketState) : TBResult × Option BucketState :=
  let rp := refillPhase capacity refill_rate now_ms st
  let tokens1 := rp.1
  let usage1 := (capacity - tokens1) / capacity * 100
  if hard_pct ≤ usage1 then
    ({ allowed := 0, state := 2, tokens := tokens1, usage_pct := usage1 }, st)
  else
    let state1 : ℕ := if soft_pct ≤ usage1 then 1 else 0
    let tokens2 := tokens1 - 1
    let usage2 := (capacity - tokens2) / capacity * 100
    if hard_pct ≤ usage2 then
      ({ allowed := 0, state := 2, tokens := tokens1, usage_pct := usage2 }, st)
    else
      ({ allowed := 1, state := if soft_pct ≤ usage2 then 1 else state1,
         tokens := tokens2, usage_pct := usage2 },
       some { tokens := tokens2, last_refill_ms := rp.2 })

/-- A sequence of single-key invocations at the given timestamps against
one store key; returns the final store content and the number of calls
that were allowed. -/
def runCalls (capacity refill_rate soft_pct hard_pct : ℚ) :
    Option BucketState → List ℚ → Option BucketState × ℕ
  | st, [] => (st, 0)
  | st, t :: ts =>
    let step := tokenBucketScript capacity refill_rate t soft_pct hard_pct st
    let rest := runCalls capacity refill_rate soft_pct hard_pct step.2 ts
    (rest.1, (if step.1.allowed = 1 then 1 else 0) + rest.2)

/-- Token count a store state represents: capacity for an absent key. -/
def tokensOr (capacity : ℚ) : Option BucketState → ℚ
  | none => capacity
  | some b => b.tokens

/-- Refill stamp of a store state, with a default for an absent key. -/
def lastOr (d : ℚ) : Option BucketState → ℚ
  | none => d
  | some b => b.last_refill_ms

/-- Invariant maintained by the script on the persisted bucket when the
hard threshold is at most 100: tokens stay in (0, capacity]. -/
def StoreInv (capacity : ℚ) : Option BucketState → Prop
  | none => True
  | some b => 0 < b.tokens ∧ b.tokens ≤ capacity

/-- Timestamp of the last call of a sequence, with a default. -/
def lastTimeD (d : ℚ) : List ℚ → ℚ
  | [] => d
  | [t] => t
  | _ :: t₂ :: ts => lastTimeD d (t₂ :: ts)

/-- Wall-clock span charged to a call sequence from a given store state:
from the stored refill stamp (or the first call when the key is absent)
to the last call. -/
def callSpan (st : Option BucketState) : List ℚ → ℚ
  | [] => 0
  | t :: ts => lastTimeD t (t :: ts) - lastOr t st

end RateLimiter

namespace RateLimiter

/-!
### Claims C1 and C8: single-invocation facts about the primitive
-/

/-- C1 (counterexample).  A single invocation can return state=hard even
though the usage percentage of the (unchanged) bucket before the
hypothetical decrement is strictly below hard_pct: with capacity 20,
tokens 42/5 and thresholds soft=40, hard=60 the pre-decrement usage is
58, yet the post-consumption overshoot guard fires and reports hard. -/
theorem tokenBucket_hard_pre_usage_cex :
    (tokenBucketScript 20 0 0 40 60 (some ⟨42/5, 0⟩)).1.state = 2 ∧
    (tokenBucketScript 20 0 0 40 60 (some ⟨42/5, 0⟩)).2 = some ⟨42/5, 0⟩ ∧
    ¬ (60 ≤ (20 - (tokenBucketScript 20 0 0 40 60 (some ⟨42/5, 0⟩)).1.tokens) / 20 * 100) := by
  refine ⟨?_, ?_, ?_⟩ <;> norm_num [tokenBucketScript, refillPhase]

/-- C1 (amended).  Whenever a single invocation reports state=hard, no
token is consumed and the store is not mutated, the returned token count
is the post-refill count, and the returned usage_pct (which in the
overshoot path is measured after the provisional decrement, not before
it) satisfies usage_pct ≥ hard_pct. -/
theorem tokenBucket_hard_no_consume
    (capacity refill_rate now_ms soft_pct hard_pct : ℚ) (st : Option BucketState)
    (hhard : (tokenBucketScript capacity refill_rate now_ms soft_pct hard_pct st).1.state = 2) :
    (tokenBucketScript capacity refill_rate now_ms soft_pct hard_pct st).2 = st ∧
    (tokenBucketScript capacity refill_rate now_ms soft_pct hard_pct st).1.tokens =
      (refillPhase capacity refill_rate now_ms st).1 ∧
    hard_pct ≤ (tokenBucketScript capacity refill_rate now_ms soft_pct hard_pct st).1.usage_pct := by
  simp only [tokenBucketScript] at hhard ⊢
  split_ifs at hhard ⊢ with h1 h2 <;>
    simp_all

/-- C1 (witness): the amended theorem applied at capacity 10, an empty
bucket and thresholds soft=hard=100, where the call reports hard. -/
theorem tokenBucket_hard_no_consume_witness :
    (tokenBucketScript 10 0 0 100 100 (some ⟨0, 0⟩)).2 = some ⟨0, 0⟩ ∧
    (tokenBucketScript 10 0 0 100 100 (some ⟨0, 0⟩)).1.tokens =
      (refillPhase 10 0 0 (some ⟨0, 0⟩)).1 ∧
    (100 : ℚ) ≤ (tokenBucketScript 10 0 0 100 100 (some ⟨0, 0⟩)).1.usage_pct :=
  tokenBucket_hard_no_consume 10 0 0 100 100 (some ⟨0, 0⟩)
    (by norm_num [tokenBucketScript, refillPhase])

/-- C8.  When the post-consumption overshoot guard fires, the refunded
token count and the returned usage percentage are inconsistent: at
capacity 10, tokens 6, soft=30, hard=50 the reply is (allowed=0,
state=2, tokens=6, usage_pct=50) although (10-6)/10*100 = 40. -/
theorem overshoot_usage_inconsistent :
    (tokenBucketScript 10 0 0 30 50 (some ⟨6, 0⟩)).1.tokens = 6 ∧
    (tokenBucketScript 10 0 0 30 50 (some ⟨6, 0⟩)).1.usage_pct = 50 ∧
    (tokenBucketScript 10 0 0 30 50 (some ⟨6, 0⟩)).1.usage_pct ≠
      (10 - (tokenBucketScript 10 0 0 30 50 (some ⟨6, 0⟩)).1.tokens) / 10 * 100 ∧
    (tokenBucketScript 10 0 0 30 50 (some ⟨6, 0⟩)).2 = some ⟨6, 0⟩ := by
  refine ⟨?_, ?_, ?_, ?_⟩ <;> norm_num [tokenBucketScript, refillPhase]

end RateLimiter

namespace RateLimiter

/-!
### Claim C2: bound on the number of allowed calls

Supporting lemmas: the refill section never exceeds capacity and adds at
most rate times elapsed time, and with hard_pct at most 100 every
persisted bucket keeps a positive token count, so each allowed call
permanently costs one token of the total budget.
-/

lemma tokensOr_le_of_inv {c : ℚ} {st : Option BucketState}
    (hinv : StoreInv c st) : tokensOr c st ≤ c := by
  cases st with
  | none => simp [tokensOr]
  | some b => exact hinv.2

lemma tokensOr_pos_of_inv {c : ℚ} {st : Option BucketState} (hc : 0 < c)
    (hinv : StoreInv c st) : 0 < tokensOr c st := by
  cases st with
  | none => simpa [tokensOr] using hc
  | some b => exact hinv.1

lemma refillPhase_eq (c r t : ℚ) (st : Option BucketState) :
    refillPhase c r t st =
      if 0 < (t - lastOr t st) / 1000 then
        (min c (tokensOr c st + (t - lastOr t st) / 1000 * r), t)
      else (tokensOr c st, lastOr t st) := by
  cases st <;> rfl

lemma refillPhase_fst_le_cap {c r t : ℚ} {st : Option BucketState}
    (hle : tokensOr c st ≤ c) : (refillPhase c r t st).1 ≤ c := by
  rw [refillPhase_eq]
  split_ifs with h
  · exact min_le_left _ _
  · exact hle

lemma refillPhase_fst_le {c r t : ℚ} {st : Option BucketState}
    (hr : 0 ≤ r) (hlast : lastOr t st ≤ t) :
    (refillPhase c r t st).1 ≤ tokensOr c st + r * ((t - lastOr t st) / 1000) := by
  rw [refillPhase_eq]
  split_ifs with h
  · calc min c (tokensOr c st + (t - lastOr t st) / 1000 * r)
        ≤ tokensOr c st + (t - lastOr t st) / 1000 * r := min_le_right _ _
      _ = tokensOr c st + r * ((t - lastOr t st) / 1000) := by ring
  · have h0 : (0 : ℚ) ≤ (t - lastOr t st) / 1000 := by
      have : (0 : ℚ) ≤ t - lastOr t st := by linarith
      positivity
    have := mul_nonneg hr h0
    linarith

lemma refillPhase_snd {c r t : ℚ} {st : Option BucketState}
    (hlast : lastOr t st ≤ t) : (refillPhase c r t st).2 = t := by
  rw [refillPhase_eq]
  split_ifs with h
  · rfl
  · have hx : t - lastOr t st ≤ 0 := by
      by_contra hpos
      push_neg at hpos
      exact h (by positivity)
    have : lastOr t st = t := le_antisymm hlast (by linarith)
    simpa using this

/-- One invocation either denies and leaves the store untouched, or
allows, persisting a bucket stamped at the call time whose token count
is positive (for hard_pct at most 100), within capacity, and at least
one below the pre-call budget plus the refill earned since the stored
stamp. -/
lemma script_step_cases (c r s h t : ℚ) (st : Option BucketState)
    (hc : 0 < c) (hr : 0 ≤ r) (hh : h ≤ 100)
    (hinv : StoreInv c st) (hlast : lastOr t st ≤ t) :
    ((tokenBucketScript c r t s h st).1.allowed ≠ 1 ∧
      (tokenBucketScript c r t s h st).2 = st) ∨
    ((tokenBucketScript c r t s h st).1.allowed = 1 ∧
      ∃ b : BucketState, (tokenBucketScript c r t s h st).2 = some b ∧
        b.last_refill_ms = t ∧ 0 < b.tokens ∧ b.tokens ≤ c ∧
        b.tokens + 1 ≤ tokensOr c st + r * ((t - lastOr t st) / 1000)) := by
  have hcap : (refillPhase c r t st).1 ≤ c :=
    refillPhase_fst_le_cap (tokensOr_le_of_inv hinv)
  have hfle : (refillPhase c r t st).1 ≤ tokensOr c st + r * ((t - lastOr t st) / 1000) :=
    refillPhase_fst_le hr hlast
  have hsnd : (refillPhase c r t st).2 = t := refillPhase_snd hlast
  simp only [tokenBucketScript]
  split_ifs with h1 h2 h3 h4 <;>
  first
  | exact Or.inl ⟨by simp, rfl⟩
  | · right
      refine ⟨rfl, ⟨(refillPhase c r t st).1 - 1, (refillPhase c r t st).2⟩, rfl, hsnd, ?_, ?_, ?_⟩
      · show (0 : ℚ) < (refillPhase c r t st).1 - 1
        have hu2 : (c - ((refillPhase c r t st).1 - 1)) / c * 100 < h := not_le.mp h2
        have hu100 : (c - ((refillPhase c r t st).1 - 1)) / c * 100 < 100 :=
          lt_of_lt_of_le hu2 hh
        have hq : (c - ((refillPhase c r t st).1 - 1)) / c < 1 := by linarith
        have := (div_lt_one hc).mp hq
        linarith
      · show (refillPhase c r t st).1 - 1 ≤ c
        linarith
      · show (refillPhase c r t st).1 - 1 + 1 ≤ tokensOr c st + r * ((t - lastOr t st) / 1000)
        linarith

end RateLimiter

namespace RateLimiter

lemma lastTimeD_default_irrel (d d' t : ℚ) (ts : List ℚ) :
    lastTimeD d (t :: ts) = lastTimeD d' (t :: ts) := by
  induction ts generalizing t with
  | nil => rfl
  | cons t₂ l ih =>
    simp only [lastTimeD]
    exact ih t₂

/-- Induction core for the allowed-calls bound: starting from any store
state satisfying the invariant, the invariant is preserved and the
allowed count plus the final token budget never exceeds the starting
budget plus the refill earned over the charged span. -/
lemma runCalls_inv_bound (c r s h : ℚ) (hc : 0 < c) (hr : 0 ≤ r) (hh : h ≤ 100)
    (ts : List ℚ) : ∀ st : Option BucketState, StoreInv c st →
      List.Chain' (· ≤ ·) ts →
      (∀ t0 ∈ ts.head?, lastOr t0 st ≤ t0) →
      StoreInv c (runCalls c r s h st ts).1 ∧
      ((runCalls c r s h st ts).2 : ℚ) + tokensOr c (runCalls c r s h st ts).1 ≤
        tokensOr c st + r * (callSpan st ts / 1000) := by
  induction ts with
  | nil =>
    intro st hinv _ _
    refine ⟨hinv, ?_⟩
    simp [runCalls, callSpan]
  | cons t ts₂ ih =>
    intro st hinv hchain hhead
    have hlast : lastOr t st ≤ t := hhead t rfl
    rcases script_step_cases c r s h t st hc hr hh hinv hlast with
      ⟨hna, hst⟩ | ⟨ha, b, hstb, hbl, hbpos, hble, hbbound⟩
    · -- the call was denied: the store is untouched and nothing was counted
      have e1 : (runCalls c r s h st (t :: ts₂)).1 = (runCalls c r s h st ts₂).1 := by
        simp only [runCalls, hst]
      have e2 : ((runCalls c r s h st (t :: ts₂)).2 : ℚ) =
          ((runCalls c r s h st ts₂).2 : ℚ) := by
        simp only [runCalls, hst, if_neg hna]
        push_cast
        ring
      have hhead₂ : ∀ t0 ∈ ts₂.head?, lastOr t0 st ≤ t0 := by
        cases ts₂ with
        | nil => intro t0 ht0; simp at ht0
        | cons t₂ l =>
          intro t0 ht0
          have ht0' : t0 = t₂ := by simpa using ht0.symm
          rw [ht0']
          have htt₂ : t ≤ t₂ := (List.chain'_cons.mp hchain).1
          cases st with
          | none => simp [lastOr]
          | some bb => exact le_trans (le_trans hlast htt₂) (le_refl _)
      obtain ⟨ih1, ih2⟩ := ih st hinv hchain.tail hhead₂
      refine ⟨by rwa [e1], ?_⟩
      rw [e1, e2]
      have hspan : callSpan st ts₂ ≤ callSpan st (t :: ts₂) := by
        cases ts₂ with
        | nil =>
          simp only [callSpan, lastTimeD]
          linarith
        | cons t₂ l =>
          simp only [callSpan, lastTimeD]
          rw [lastTimeD_default_irrel t t₂ t₂ l]
          have htt₂ : t ≤ t₂ := (List.chain'_cons.mp hchain).1
          cases st with
          | none => simp only [lastOr]; linarith
          | some bb => simp only [lastOr]; linarith
      have hmul : r * (callSpan st ts₂ / 1000) ≤ r * (callSpan st (t :: ts₂) / 1000) := by
        have : callSpan st ts₂ / 1000 ≤ callSpan st (t :: ts₂) / 1000 := by linarith
        exact mul_le_mul_of_nonneg_left this hr
      linarith
    · -- the call was allowed: one token is gone for good
      have e1 : (runCalls c r s h st (t :: ts₂)).1 = (runCalls c r s h (some b) ts₂).1 := by
        simp only [runCalls, hstb]
      have e2 : ((runCalls c r s h st (t :: ts₂)).2 : ℚ) =
          1 + ((runCalls c r s h (some b) ts₂).2 : ℚ) := by
        simp only [runCalls, hstb, if_pos ha]
        push_cast
        ring
      have hhead₂ : ∀ t0 ∈ ts₂.head?, lastOr t0 (some b) ≤ t0 := by
        cases ts₂ with
        | nil => intro t0 ht0; simp at ht0
        | cons t₂ l =>
          intro t0 ht0
          have ht0' : t0 = t₂ := by simpa using ht0.symm
          rw [ht0']
          have htt₂ : t ≤ t₂ := (List.chain'_cons.mp hchain).1
          simp only [lastOr, hbl]
          exact htt₂
      obtain ⟨ih1, ih2⟩ := ih (some b) ⟨hbpos, hble⟩ hchain.tail hhead₂
      refine ⟨by rwa [e1], ?_⟩
      rw [e1, e2]
      have htok : tokensOr c (some b) = b.tokens := rfl
      cases ts₂ with
      | nil =>
        simp only [runCalls, callSpan, lastTimeD]
        rw [htok]
        push_cast
        linarith
      | cons t₂ l =>
        have hspan₂ : callSpan (some b) (t₂ :: l) = lastTimeD t₂ (t₂ :: l) - t := by
          simp only [callSpan, lastOr, hbl]
        have hspan₁ : callSpan st (t :: t₂ :: l) = lastTimeD t₂ (t₂ :: l) - lastOr t st := by
          simp only [callSpan, lastTimeD]
          rw [lastTimeD_default_irrel t t₂ t₂ l]
        rw [hspan₂, htok] at ih2
        rw [hspan₁]
        have hring : r * ((t - lastOr t st) / 1000) +
            r * ((lastTimeD t₂ (t₂ :: l) - t) / 1000) =
            r * ((lastTimeD t₂ (t₂ :: l) - lastOr t st) / 1000) := by ring
        linarith

end RateLimiter

namespace RateLimiter

/-- C2 (amended).  For any sequence of calls on one key with capacity C
and refill rate r, starting from an absent (hence full) bucket, at
non-decreasing timestamps, and with hard_pct ≤ 100, the number of
allowed calls is at most C + floor(r·W) where W is the wall-clock span
of the sequence in seconds. -/
theorem allowed_calls_bound (C : ℕ) (r soft_pct hard_pct : ℚ) (ts : List ℚ)
    (hC : 0 < C) (hr : 0 ≤ r) (hh : hard_pct ≤ 100)
    (hts : List.Chain' (· ≤ ·) ts) :
    ((runCalls (C : ℚ) r soft_pct hard_pct none ts).2 : ℤ) ≤
      (C : ℤ) + ⌊r * ((lastTimeD (ts.headD 0) ts - ts.headD 0) / 1000)⌋ := by
  cases ts with
  | nil =>
    simp only [runCalls, lastTimeD]
    norm_num
  | cons t ts₂ =>
    have hc' : (0 : ℚ) < (C : ℚ) := by exact_mod_cast hC
    obtain ⟨hinv, hbound⟩ :=
      runCalls_inv_bound (C : ℚ) r soft_pct hard_pct hc' hr hh (t :: ts₂) none
        trivial hts (fun t0 _ => le_of_eq rfl)
    have hpos := tokensOr_pos_of_inv hc' hinv
    have htok : tokensOr (C : ℚ) none = (C : ℚ) := rfl
    have hA : ((runCalls (C : ℚ) r soft_pct hard_pct none (t :: ts₂)).2 : ℚ) <
        (C : ℚ) + r * (callSpan (none : Option BucketState) (t :: ts₂) / 1000) := by
      rw [htok] at hbound
      linarith
    have hspan : callSpan (none : Option BucketState) (t :: ts₂) =
        lastTimeD ((t :: ts₂).headD 0) (t :: ts₂) - (t :: ts₂).headD 0 := by
      simp only [callSpan, lastOr, List.headD_cons]
    rw [hspan] at hA
    have hfloor : ((runCalls (C : ℚ) r soft_pct hard_pct none (t :: ts₂)).2 : ℤ) - (C : ℤ) ≤
        ⌊r * ((lastTimeD ((t :: ts₂).headD 0) (t :: ts₂) - (t :: ts₂).headD 0) / 1000)⌋ := by
      apply Int.le_floor.mpr
      push_cast
      linarith
    linarith

/-- C2 (witness): the amended bound applied at C=1, r=0, thresholds
soft=hard=100 and a single call at time 0. -/
theorem allowed_calls_bound_witness :
    ((runCalls ((1 : ℕ) : ℚ) 0 100 100 none [0]).2 : ℤ) ≤
      ((1 : ℕ) : ℤ) + ⌊(0 : ℚ) * ((lastTimeD (([0] : List ℚ).headD 0) [0] -
        ([0] : List ℚ).headD 0) / 1000)⌋ :=
  allowed_calls_bound 1 0 100 100 [0] (by norm_num) (le_refl 0) (by norm_num) (by simp)

/-- C2 (counterexample).  With hard_pct = 200 (a value the throttle
configuration admits) the stated bound fails: capacity 2, refill rate 0,
four calls at the same millisecond yield 3 allowed calls, exceeding
C + floor(r·W) = 2. -/
theorem allowed_calls_bound_cex :
    (runCalls 2 0 200 200 none [0, 0, 0, 0]).2 = 3 ∧
    ¬ (((runCalls 2 0 200 200 none [0, 0, 0, 0]).2 : ℤ) ≤
        2 + ⌊(0 : ℚ) * ((lastTimeD (([0, 0, 0, 0] : List ℚ).headD 0) [0, 0, 0, 0] -
          ([0, 0, 0, 0] : List ℚ).headD 0) / 1000)⌋) := by
  have h3 : (runCalls 2 0 200 200 none [0, 0, 0, 0]).2 = 3 := by
    norm_num [runCalls, tokenBucketScript, refillPhase]
  refine ⟨h3, ?_⟩
  rw [h3]
  norm_num

end RateLimiter

namespace RateLimiter

/-!
### Decisioner aggregation and decision assembly

Embedding of steps 5-8 of ThrottleDecisioner.performHierarchicalCheck
(src/unnamed/part_013, lines 225-265) together with the engine helpers
TokenBucketEngine.calculateResetTime and calculateRetryAfter
(src/core/token-bucket.ts, lines 96-128).  The per-check result rows
built by executeSingleCheck and executeTenantBatchChecks carry
limit := policy.rpm, so the limit field is inlined as policy.rpm here.
Date.now() is passed explicitly as `now`.
-/

inductive ThrottleState where
  | normal
  | soft
  | hard
  deriving Repr, DecidableEq

inductive Scope where
  | user_global
  | user_endpoint
  | tenant_global
  | tenant_endpoint
  | global_endpoint
  | global_system
  deriving Repr, DecidableEq

structure BucketPolicy where
  rpm : ℚ
  rps : ℚ
  burst_capacity : ℚ
  refill_rate_per_sec : Option ℚ
  deriving Repr, DecidableEq

/-- JavaScript truthiness for an optional numeric field: absent and 0
are falsy. -/
def truthyQ : Option ℚ → Bool
  | none => false
  | some v => decide (v ≠ 0)

/-- The idiom `policy.refill_rate_per_sec || policy.rpm / 60` used at
every call site of the engine. -/
def refillOrDefault (p : BucketPolicy) : ℚ :=
  match p.refill_rate_per_sec with
  | some v => if v = 0 then p.rpm / 60 else v
  | none => p.rpm / 60

structure CheckOutcome where
  scope : Scope
  state : ThrottleState
  tokens : ℚ
  usage_pct : ℚ
  policy : BucketPolicy
  hardPct : ℚ
  deriving Repr, DecidableEq

def statePriority : ThrottleState → ℕ
  | .hard => 3
  | .soft => 2
  | .normal => 1

/-- ThrottleDecisioner.aggregateResults (part_013 lines 360-376): a
JavaScript reduce without seed, the first element is the accumulator. -/
def aggregateResults (head : CheckOutcome) (rest : List CheckOutcome) : CheckOutcome :=
  rest.foldl
    (fun worst current =>
      if statePriority worst.state < statePriority current.state then current else worst)
    head

/-- TokenBucketEngine.calculateResetTime (token-bucket.ts lines 96-104). -/
def calculateResetTime (now currentTokens capacity refillRatePerSec : ℚ) : ℚ :=
  if capacity ≤ currentTokens then now
  else now + (capacity - currentTokens) / refillRatePerSec * 1000

/-- ThrottleDecisioner.calculateReset (part_013 lines 381-385). -/
def calculateReset (now tokens capacity refillRatePerSec : ℚ) : ℤ :=
  ⌈calculateResetTime now tokens capacity refillRatePerSec / 1000⌉

/-- TokenBucketEngine.calculateRetryAfter (token-bucket.ts lines 109-128). -/
def calculateRetryAfter (currentTokens capacity refillRatePerSec hardThresholdPct : ℚ) : ℤ :=
  let maxAllowedTokensConsumed := capacity * hardThresholdPct / 100
  let currentTokensConsumed := capacity - currentTokens
  if currentTokensConsumed ≤ maxAllowedTokensConsumed then 0
  else ⌈(currentTokensConsumed - maxAllowedTokensConsumed) / refillRatePerSec⌉

structure Decision where
  allowed : Bool
  state : ThrottleState
  scope : Scope
  limit : ℚ
  remaining : ℤ
  reset : ℤ
  retry_after : Option ℤ
  deriving Repr, DecidableEq

/-- Steps 5-8 of performHierarchicalCheck (part_013 lines 228-265): pick
the worst result, compute the reset epoch from its tokens, its limit
(that is, policy.rpm) and its refill rate, compute retry-after from its
burst_capacity when hard, and assemble the decision. -/
def buildDecision (now : ℚ) (head : CheckOutcome) (rest : List CheckOutcome) : Decision :=
  let worstResult := aggregateResults head rest
  let resetTime := calculateReset now worstResult.tokens worstResult.policy.rpm
      (refillOrDefault worstResult.policy)
  let retryAfter : Option ℤ :=
    if worstResult.state = .hard then
      some (calculateRetryAfter worstResult.tokens worstResult.policy.burst_capacity
        (refillOrDefault worstResult.policy) worstResult.hardPct)
    else none
  { allowed := decide (worstResult.state ≠ .hard),
    state := worstResult.state,
    scope := worstResult.scope,
    limit := worstResult.policy.rpm,
    remaining := ⌊worstResult.tokens⌋,
    reset := resetTime,
    retry_after := retryAfter }

end RateLimiter

namespace RateLimiter

/-!
### Claim C4: the reset field of a decision
-/

/-- C4 (counterexample input): worst result with tokens 0, rpm 60,
burst_capacity 120, refill rate 1 per second. -/
def resetCexOutcome : CheckOutcome :=
  { scope := .tenant_global, state := .hard, tokens := 0, usage_pct := 100,
    policy := { rpm := 60, rps := 1, burst_capacity := 120, refill_rate_per_sec := some 1 },
    hardPct := 110 }

/-- C4 (counterexample).  The decision reset is computed from the worst
scope limit (policy.rpm), not from burst_capacity: at time 0 the code
yields 60 while the burst-capacity formula of the claim yields 120. -/
theorem decision_reset_burst_cex :
    (buildDecision 0 resetCexOutcome []).reset = 60 ∧
    ⌈((0 : ℚ) + (resetCexOutcome.policy.burst_capacity - resetCexOutcome.tokens) /
        refillOrDefault resetCexOutcome.policy * 1000) / 1000⌉ = 120 ∧
    (buildDecision 0 resetCexOutcome []).reset ≠
      ⌈((0 : ℚ) + (resetCexOutcome.policy.burst_capacity - resetCexOutcome.tokens) /
        refillOrDefault resetCexOutcome.policy * 1000) / 1000⌉ := by
  refine ⟨?_, ?_, ?_⟩ <;>
    norm_num [buildDecision, aggregateResults, calculateReset, calculateResetTime,
      refillOrDefault, resetCexOutcome]

/-- C4 (amended).  Every decision produced by the hierarchical check has
reset equal to the reset epoch computed from the worst scope limit
(= policy.rpm) as the capacity argument (now rounded up to seconds when
tokens already reach that limit), limit = policy.rpm of the worst scope,
and remaining = floor(tokens). -/
theorem decision_reset_fields (now : ℚ) (head : CheckOutcome) (rest : List CheckOutcome) :
    (buildDecision now head rest).reset =
      (if (aggregateResults head rest).policy.rpm ≤ (aggregateResults head rest).tokens then
        ⌈now / 1000⌉
      else
        ⌈(now + ((aggregateResults head rest).policy.rpm - (aggregateResults head rest).tokens) /
            refillOrDefault (aggregateResults head rest).policy * 1000) / 1000⌉) ∧
    (buildDecision now head rest).limit = (aggregateResults head rest).policy.rpm ∧
    (buildDecision now head rest).remaining = ⌊(aggregateResults head rest).tokens⌋ := by
  refine ⟨?_, rfl, rfl⟩
  simp only [buildDecision, calculateReset, calculateResetTime]
  split_ifs <;> rfl

end RateLimiter

namespace RateLimiter

/-!
### Override manager

Embedding of OverrideManager.applyOverride (src/core/override-manager.ts
lines 238-302), OverrideManager.getPriorityOverride (lines 80-109) and
the override construction of AbuseDetectionJob.penalizeTenant
(src/jobs/abuse-detection-job.ts lines 162-187).  Optional string fields
use JavaScript truthiness: absent and the empty string are falsy.
Dates are modelled as rational epoch milliseconds; the \_id,
created\_at and metadata fields play no role in these claims and are
omitted.
-/

inductive OverrideType where
  | penalty_multiplier
  | temporary_ban
  | custom_limit
  deriving Repr, DecidableEq

inductive OverrideSource where
  | auto_detector
  | manual_operator
  deriving Repr, DecidableEq

structure TenantOverride where
  tenant_id : String
  user_id : Option String
  endpoint : Option String
  override_type : OverrideType
  penalty_multiplier : Option ℚ
  custom_rate : Option ℚ
  custom_burst : Option ℚ
  reason : String
  source : OverrideSource
  expires_at : ℚ
  deriving Repr, DecidableEq

/-- JavaScript truthiness for an optional string field. -/
def truthyS : Option String → Bool
  | none => false
  | some str => decide (str ≠ "")

/-- OverrideManager.applyOverride (override-manager.ts lines 238-302). -/
def applyOverride (o : TenantOverride) (tenantPolicy : BucketPolicy)
    (userPolicy : Option BucketPolicy) : BucketPolicy × Option BucketPolicy × Bool :=
  if o.override_type = .temporary_ban then
    (tenantPolicy, userPolicy, true)
  else if o.override_type = .penalty_multiplier ∧ truthyQ o.penalty_multiplier = true then
    let multiplier := o.penalty_multiplier.getD 0
    let modifiedTenantPolicy : BucketPolicy :=
      { rpm := (⌊tenantPolicy.rpm * multiplier⌋ : ℚ),
        rps := (⌊tenantPolicy.rps * multiplier⌋ : ℚ),
        burst_capacity := (⌊tenantPolicy.burst_capacity * multiplier⌋ : ℚ),
        refill_rate_per_sec :=
          if truthyQ tenantPolicy.refill_rate_per_sec = true then
            some (tenantPolicy.refill_rate_per_sec.getD 0 * multiplier)
          else none }
    let modifiedUserPolicy : Option BucketPolicy :=
      userPolicy.map fun up =>
        { rpm := (⌊up.rpm * multiplier⌋ : ℚ),
          rps := (⌊up.rps * multiplier⌋ : ℚ),
          burst_capacity := (⌊up.burst_capacity * multiplier⌋ : ℚ),
          refill_rate_per_sec :=
            if truthyQ up.refill_rate_per_sec = true then
              some (up.refill_rate_per_sec.getD 0 * multiplier)
            else none }
    (modifiedTenantPolicy, modifiedUserPolicy, false)
  else if o.override_type = .custom_limit ∧ truthyQ o.custom_rate = true ∧
      truthyQ o.custom_burst = true then
    let rate := o.custom_rate.getD 0
    let customPolicy : BucketPolicy :=
      { rpm := rate, rps := rate / 60,
        burst_capacity := o.custom_burst.getD 0,
        refill_rate_per_sec := some (rate / 60) }
    (customPolicy, some customPolicy, false)
  else
    (tenantPolicy, userPolicy, false)

/-- OverrideManager.getPriorityOverride (override-manager.ts lines
80-109): sequential conditional assignment over the four shapes, most
specific first. -/
def getPriorityOverride (overrides : List TenantOverride)
    (user_id endpoint : Option String) : Option TenantOverride :=
  if 0 < overrides.length then
    let p1 := if truthyS user_id = true ∧ truthyS endpoint = true then
        overrides.find? (fun o => decide (o.user_id = user_id) && decide (o.endpoint = endpoint))
      else none
    match p1 with
    | some o => some o
    | none =>
      let p2 := if truthyS user_id = true then
          overrides.find? (fun o => decide (o.user_id = user_id) && !truthyS o.endpoint)
        else none
      match p2 with
      | some o => some o
      | none =>
        let p3 := if truthyS endpoint = true then
            overrides.find? (fun o => decide (o.endpoint = endpoint) && !truthyS o.user_id)
          else none
        match p3 with
        | some o => some o
        | none => overrides.find? (fun o => !truthyS o.user_id && !truthyS o.endpoint)
  else none

inductive PenaltyType where
  | adaptive
  | fixed
  deriving Repr, DecidableEq

structure AbuseConfig where
  enabled : Bool
  checkIntervalMs : ℚ
  throttleThreshold : ℚ
  detectionWindowMinutes : ℚ
  penaltyDurationMs : ℚ
  penaltyType : PenaltyType
  penaltyMultiplier : ℚ
  deriving Repr, DecidableEq

/-- The override document built by AbuseDetectionJob.penalizeTenant
(abuse-detection-job.ts lines 162-185): the exact numeric formatting of
the interpolated reason string is not modelled. -/
def buildPenaltyOverride (cfg : AbuseConfig) (tenant_id : String)
    (throttle_rate now : ℚ) : TenantOverride :=
  { tenant_id := tenant_id,
    user_id := none,
    endpoint := none,
    override_type :=
      match cfg.penaltyType with
      | .adaptive => .penalty_multiplier
      | .fixed => .custom_limit,
    penalty_multiplier :=
      match cfg.penaltyType with
      | .adaptive => some cfg.penaltyMultiplier
      | .fixed => none,
    custom_rate := none,
    custom_burst := none,
    reason := "Automatic abuse detection",
    source := .auto_detector,
    expires_at := now + cfg.penaltyDurationMs }

end RateLimiter

namespace RateLimiter

/-!
### Claim C3: penalty multiplier scaling
-/

/-- C3 (counterexample input): a penalty override with multiplier 1/10. -/
def penaltyCexOverride : TenantOverride :=
  { tenant_id := "acme", user_id := none, endpoint := none,
    override_type := .penalty_multiplier, penalty_multiplier := some (1/10),
    custom_rate := none, custom_burst := none, reason := "cex",
    source := .auto_detector, expires_at := 0 }

/-- C3 (counterexample).  Scaling rpm = 5 by m = 1/10 yields
floor(1/2) = 0: the code has no floor-to-1 clamp, so the scaled rpm
drops below 1 token. -/
theorem penalty_floor_one_cex :
    (applyOverride penaltyCexOverride ⟨5, 5, 5, none⟩ none).1.rpm = 0 ∧
    ¬ (1 ≤ (applyOverride penaltyCexOverride ⟨5, 5, 5, none⟩ none).1.rpm) := by
  constructor <;>
    norm_num [applyOverride, penaltyCexOverride, truthyQ,
      show OverrideType.penalty_multiplier ≠ OverrideType.temporary_ban from by decide]

/-- C3 (amended).  For a penalty_multiplier override with multiplier
m ∈ (0,1], the fields rpm, rps and burst_capacity of both the tenant
and (when present) the user policy become floor(original × m) with no
lower clamp (the result may be 0), while refill_rate_per_sec is scaled
to original × m without flooring when present and nonzero and is left
unset otherwise; the banned flag is false. -/
theorem applyOverride_penalty_fields
    (o : TenantOverride) (m : ℚ) (tp : BucketPolicy) (up : Option BucketPolicy)
    (hty : o.override_type = .penalty_multiplier)
    (hm : o.penalty_multiplier = some m) (hm1 : 0 < m) (hm2 : m ≤ 1) :
    (applyOverride o tp up).1.rpm = (⌊tp.rpm * m⌋ : ℚ) ∧
    (applyOverride o tp up).1.rps = (⌊tp.rps * m⌋ : ℚ) ∧
    (applyOverride o tp up).1.burst_capacity = (⌊tp.burst_capacity * m⌋ : ℚ) ∧
    (applyOverride o tp up).1.refill_rate_per_sec =
      (if truthyQ tp.refill_rate_per_sec = true then
        some (tp.refill_rate_per_sec.getD 0 * m) else none) ∧
    (applyOverride o tp up).2.1 = up.map (fun u =>
      { rpm := (⌊u.rpm * m⌋ : ℚ), rps := (⌊u.rps * m⌋ : ℚ),
        burst_capacity := (⌊u.burst_capacity * m⌋ : ℚ),
        refill_rate_per_sec :=
          if truthyQ u.refill_rate_per_sec = true then
            some (u.refill_rate_per_sec.getD 0 * m) else none }) ∧
    (applyOverride o tp up).2.2 = false := by
  have hban : ¬ o.override_type = OverrideType.temporary_ban := by
    rw [hty]; intro hcon; cases hcon
  have htr : truthyQ o.penalty_multiplier = true := by
    rw [hm]; simpa [truthyQ] using hm1.ne'
  have hget : o.penalty_multiplier.getD 0 = m := by rw [hm]; rfl
  simp only [applyOverride, if_neg hban, if_pos (And.intro hty htr), hget]
  refine ⟨?_, ?_, ?_, ?_, ?_, ?_⟩ <;> first | trivial | rfl

/-- C3 (witness): the amended theorem at m = 1/2 on concrete tenant and
user policies. -/
theorem applyOverride_penalty_fields_witness :
    (applyOverride
        { tenant_id := "acme", user_id := none, endpoint := none,
          override_type := .penalty_multiplier, penalty_multiplier := some (1/2),
          custom_rate := none, custom_burst := none, reason := "w",
          source := .manual_operator, expires_at := 0 }
        ⟨100, 2, 200, some 2⟩ (some ⟨10, 1, 20, none⟩)).1.rpm =
      ((⌊(100 : ℚ) * (1/2)⌋ : ℤ) : ℚ) ∧
    (applyOverride
        { tenant_id := "acme", user_id := none, endpoint := none,
          override_type := .penalty_multiplier, penalty_multiplier := some (1/2),
          custom_rate := none, custom_burst := none, reason := "w",
          source := .manual_operator, expires_at := 0 }
        ⟨100, 2, 200, some 2⟩ (some ⟨10, 1, 20, none⟩)).2.2 = false := by
  have h := applyOverride_penalty_fields
    { tenant_id := "acme", user_id := none, endpoint := none,
      override_type := .penalty_multiplier, penalty_multiplier := some (1/2),
      custom_rate := none, custom_burst := none, reason := "w",
      source := .manual_operator, expires_at := 0 }
    (1/2) ⟨100, 2, 200, some 2⟩ (some ⟨10, 1, 20, none⟩) rfl rfl (by norm_num) (by norm_num)
  exact ⟨h.1, h.2.2.2.2.2⟩

/-!
### Claim C7: override precedence
-/

/-- C7.  With a truthy user id and endpoint, getPriorityOverride returns
exactly the first match of the highest-priority present shape, in the
order user+endpoint, user only, endpoint only, tenant-wide; being an
Option it returns at most one override. -/
theorem getPriorityOverride_precedence (l : List TenantOverride) (u e : Option String)
    (hu : truthyS u = true) (he : truthyS e = true) :
    getPriorityOverride l u e =
      (l.find? (fun o => decide (o.user_id = u) && decide (o.endpoint = e))).orElse (fun _ =>
        (l.find? (fun o => decide (o.user_id = u) && !truthyS o.endpoint)).orElse (fun _ =>
          (l.find? (fun o => decide (o.endpoint = e) && !truthyS o.user_id)).orElse (fun _ =>
            l.find? (fun o => !truthyS o.user_id && !truthyS o.endpoint)))) := by
  cases l with
  | nil => simp [getPriorityOverride]
  | cons a l' =>
    simp only [getPriorityOverride]
    rw [if_pos (by simp : 0 < (a :: l').length)]
    rw [if_pos (And.intro hu he), if_pos hu, if_pos he]
    cases hf1 : (a :: l').find? (fun o => decide (o.user_id = u) && decide (o.endpoint = e)) with
    | some v => simp [hf1]
    | none =>
      cases hf2 : (a :: l').find? (fun o => decide (o.user_id = u) && !truthyS o.endpoint) with
      | some v => simp [hf1, hf2]
      | none =>
        cases hf3 : (a :: l').find?
            (fun o => decide (o.endpoint = e) && !truthyS o.user_id) with
        | some v => simp [hf1, hf2, hf3]
        | none => simp [hf1, hf2, hf3]

/-- C7 (witness): the precedence theorem at a two-element list holding a
tenant-wide override and a user+endpoint override. -/
theorem getPriorityOverride_precedence_witness :
    getPriorityOverride
        [{ tenant_id := "acme", user_id := none, endpoint := none,
           override_type := .temporary_ban, penalty_multiplier := none,
           custom_rate := none, custom_burst := none, reason := "w1",
           source := .manual_operator, expires_at := 0 },
         { tenant_id := "acme", user_id := some "alice", endpoint := some "/s",
           override_type := .custom_limit, penalty_multiplier := none,
           custom_rate := some 10, custom_burst := some 20, reason := "w2",
           source := .manual_operator, expires_at := 0 }]
        (some "alice") (some "/s") =
      (([{ tenant_id := "acme", user_id := none, endpoint := none,
           override_type := .temporary_ban, penalty_multiplier := none,
           custom_rate := none, custom_burst := none, reason := "w1",
           source := .manual_operator, expires_at := 0 },
         { tenant_id := "acme", user_id := some "alice", endpoint := some "/s",
           override_type := .custom_limit, penalty_multiplier := none,
           custom_rate := some 10, custom_burst := some 20, reason := "w2",
           source := .manual_operator, expires_at := 0 }] : List TenantOverride).find?
        (fun o => decide (o.user_id = some "alice") && decide (o.endpoint = some "/s"))).orElse
        (fun _ =>
          (([{ tenant_id := "acme", user_id := none, endpoint := none,
               override_type := .temporary_ban, penalty_multiplier := none,
               custom_rate := none, custom_burst := none, reason := "w1",
               source := .manual_operator, expires_at := 0 },
             { tenant_id := "acme", user_id := some "alice", endpoint := some "/s",
               override_type := .custom_limit, penalty_multiplier := none,
               custom_rate := some 10, custom_burst := some 20, reason := "w2",
               source := .manual_operator, expires_at := 0 }] : List TenantOverride).find?
            (fun o => decide (o.user_id = some "alice") && !truthyS o.endpoint)).orElse
            (fun _ =>
              (([{ tenant_id := "acme", user_id := none, endpoint := none,
                   override_type := .temporary_ban, penalty_multiplier := none,
                   custom_rate := none, custom_burst := none, reason := "w1",
                   source := .manual_operator, expires_at := 0 },
                 { tenant_id := "acme", user_id := some "alice", endpoint := some "/s",
                   override_type := .custom_limit, penalty_multiplier := none,
                   custom_rate := some 10, custom_burst := some 20, reason := "w2",
                   source := .manual_operator, expires_at := 0 }] : List TenantOverride).find?
                (fun o => decide (o.endpoint = some "/s") && !truthyS o.user_id)).orElse
                (fun _ =>
                  ([{ tenant_id := "acme", user_id := none, endpoint := none,
                      override_type := .temporary_ban, penalty_multiplier := none,
                      custom_rate := none, custom_burst := none, reason := "w1",
                      source := .manual_operator, expires_at := 0 },
                    { tenant_id := "acme", user_id := some "alice", endpoint := some "/s",
                      override_type := .custom_limit, penalty_multiplier := none,
                      custom_rate := none, custom_burst := none, reason := "w2",
                      source := .manual_operator, expires_at := 0 }] : List TenantOverride).find?
                    (fun o => !truthyS o.user_id && !truthyS o.endpoint)))) := by
  have h := getPriorityOverride_precedence
    [{ tenant_id := "acme", user_id := none, endpoint := none,
       override_type := .temporary_ban, penalty_multiplier := none,
       custom_rate := none, custom_burst := none, reason := "w1",
       source := .manual_operator, expires_at := 0 },
     { tenant_id := "acme", user_id := some "alice", endpoint := some "/s",
       override_type := .custom_limit, penalty_multiplier := none,
       custom_rate := some 10, custom_burst := some 20, reason := "w2",
       source := .manual_operator, expires_at := 0 }]
    (some "alice") (some "/s") (by decide) (by decide)
  exact h

/-!
### Claim C10: fixed penalty type produces an inert custom_limit override
-/

/-- C10.  When the configured penalty type is fixed, the override the
abuse detector creates has override_type custom_limit with custom_rate
and custom_burst unset, and applying it leaves the tenant and user
policies unchanged with banned = false. -/
theorem fixedPenalty_custom_limit_noop (cfg : AbuseConfig) (tenant : String)
    (rate now : ℚ) (tp : BucketPolicy) (up : Option BucketPolicy)
    (hfixed : cfg.penaltyType = .fixed) :
    (buildPenaltyOverride cfg tenant rate now).override_type = .custom_limit ∧
    (buildPenaltyOverride cfg tenant rate now).custom_rate = none ∧
    (buildPenaltyOverride cfg tenant rate now).custom_burst = none ∧
    applyOverride (buildPenaltyOverride cfg tenant rate now) tp up = (tp, up, false) := by
  simp [buildPenaltyOverride, applyOverride, hfixed, truthyQ]

/-- C10 (witness): the theorem at a concrete fixed-penalty
configuration and concrete policies. -/
theorem fixedPenalty_custom_limit_noop_witness :
    applyOverride
        (buildPenaltyOverride ⟨true, 60000, 8/10, 5, 300000, .fixed, 1/10⟩ "acme" (9/10) 0)
        ⟨100, 2, 200, none⟩ none =
      (⟨100, 2, 200, none⟩, none, false) :=
  (fixedPenalty_custom_limit_noop ⟨true, 60000, 8/10, 5, 300000, .fixed, 1/10⟩
    "acme" (9/10) 0 ⟨100, 2, 200, none⟩ none rfl).2.2.2

end RateLimiter

namespace RateLimiter

/-!
### Circuit breaker

Embedding of CircuitBreaker (src/utils/circuit-breaker.ts, shipped in
the bundle after logger.ts: execute lines 163-182, onSuccess 187-197,
onFailure 202-212, transitionTo 217-248).  Date.now() is passed
explicitly; the wrapped operation is summarised by its outcome. -/

inductive CBState where
  | CLOSED
  | OPEN
  | HALF_OPEN
  deriving Repr, DecidableEq

structure CircuitBreakerConfig where
  failure_threshold : ℕ
  timeout_ms : ℚ
  success_threshold : ℕ
  deriving Repr, DecidableEq

structure CircuitBreaker where
  state : CBState
  failures : ℕ
  successes : ℕ
  last_failure_time : Option ℚ
  next_attempt_time : ℚ
  deriving Repr, DecidableEq

def transitionTo (cfg : CircuitBreakerConfig) (now : ℚ) (cb : CircuitBreaker)
    (new_state : CBState) : CircuitBreaker :=
  if cb.state = new_state then cb
  else
    let cb1 := { cb with state := new_state }
    if new_state = .OPEN then { cb1 with next_attempt_time := now + cfg.timeout_ms }
    else cb1

def onSuccess (cfg : CircuitBreakerConfig) (now : ℚ) (cb : CircuitBreaker) :
    CircuitBreaker :=
  let cb1 := { cb with failures := 0 }
  if cb1.state = .HALF_OPEN then
    let cb2 := { cb1 with successes := cb1.successes + 1 }
    if cfg.success_threshold ≤ cb2.successes then
      { transitionTo cfg now cb2 .CLOSED with successes := 0 }
    else cb2
  else cb1

def onFailure (cfg : CircuitBreakerConfig) (now : ℚ) (cb : CircuitBreaker) :
    CircuitBreaker :=
  let cb1 := { cb with failures := cb.failures + 1, last_failure_time := some now }
  if cb1.state = .HALF_OPEN then
    { transitionTo cfg now cb1 .OPEN with successes := 0 }
  else if cfg.failure_threshold ≤ cb1.failures then
    transitionTo cfg now cb1 .OPEN
  else cb1

inductive ExecOutcome where
  | failFast
  | completed (success : Bool)
  deriving Repr, DecidableEq

/-- CircuitBreaker.execute: fail fast while OPEN before the retry time,
transition to HALF_OPEN on the first call past it, then run the
operation and account its outcome. -/
def execute (cfg : CircuitBreakerConfig) (now : ℚ) (opSuccess : Bool)
    (cb : CircuitBreaker) : ExecOutcome × CircuitBreaker :=
  if cb.state = .OPEN then
    if now < cb.next_attempt_time then (.failFast, cb)
    else
      let cb1 := transitionTo cfg now cb .HALF_OPEN
      if opSuccess then (.completed true, onSuccess cfg now cb1)
      else (.completed false, onFailure cfg now cb1)
  else
    if opSuccess then (.completed true, onSuccess cfg now cb)
    else (.completed false, onFailure cfg now cb)

/-- A run of consecutive successful executions. -/
def runSuccesses (cfg : CircuitBreakerConfig) (now : ℚ) :
    ℕ → CircuitBreaker → CircuitBreaker
  | 0, cb => cb
  | n + 1, cb => runSuccesses cfg now n (execute cfg now true cb).2

lemma execute_halfOpen_success (cfg : CircuitBreakerConfig) (now : ℚ)
    (cb : CircuitBreaker) (hho : cb.state = .HALF_OPEN) :
    (execute cfg now true cb).2 =
      if cfg.success_threshold ≤ cb.successes + 1 then
        { transitionTo cfg now
            { cb with failures := 0, successes := cb.successes + 1 } .CLOSED
          with successes := 0 }
      else { cb with failures := 0, successes := cb.successes + 1 } := by
  simp [execute, onSuccess, hho]

lemma transitionTo_halfOpen_closed (cfg : CircuitBreakerConfig) (now : ℚ)
    (cb : CircuitBreaker) (hho : cb.state = .HALF_OPEN) :
    (transitionTo cfg now cb .CLOSED).state = .CLOSED := by
  simp [transitionTo, hho]

lemma runSuccesses_closes (cfg : CircuitBreakerConfig) (now : ℚ) :
    ∀ (n : ℕ) (cb : CircuitBreaker), cb.state = .HALF_OPEN →
      cb.successes + n = cfg.success_threshold → 1 ≤ n →
      (runSuccesses cfg now n cb).state = .CLOSED := by
  intro n
  induction n with
  | zero => intro cb _ _ hn; omega
  | succ k ihk =>
    intro cb hho hsum _
    cases k with
    | zero =>
      simp only [runSuccesses]
      rw [execute_halfOpen_success cfg now cb hho,
        if_pos (by omega : cfg.success_threshold ≤ cb.successes + 1)]
      exact transitionTo_halfOpen_closed cfg now _ hho
    | succ k' =>
      simp only [runSuccesses]
      rw [execute_halfOpen_success cfg now cb hho,
        if_neg (by omega : ¬ cfg.success_threshold ≤ cb.successes + 1)]
      exact ihk _ hho (by simp; omega) (by omega)

/-- C6.  The circuit breaker step relation: (1) in OPEN before
next_attempt_time every call fails fast without running the operation
and without touching the state; (2) in OPEN at or past
next_attempt_time the operation is run; (3) such a call transitions to
HALF_OPEN (shown for a success that does not yet close the circuit);
(4) in HALF_OPEN a failure returns to OPEN with next_attempt_time reset
to now + timeout_ms and the success counter cleared; (5) from
HALF_OPEN, success_threshold consecutive successes reach CLOSED. -/
theorem circuitBreaker_protocol (cfg : CircuitBreakerConfig) :
    (∀ (now : ℚ) (r : Bool) (cb : CircuitBreaker),
      cb.state = .OPEN → now < cb.next_attempt_time →
      execute cfg now r cb = (.failFast, cb)) ∧
    (∀ (now : ℚ) (r : Bool) (cb : CircuitBreaker),
      cb.state = .OPEN → cb.next_attempt_time ≤ now →
      (execute cfg now r cb).1 = .completed r) ∧
    (∀ (now : ℚ) (cb : CircuitBreaker),
      cb.state = .OPEN → cb.next_attempt_time ≤ now →
      cb.successes + 1 < cfg.success_threshold →
      (execute cfg now true cb).2.state = .HALF_OPEN ∧
      (execute cfg now true cb).2.successes = cb.successes + 1) ∧
    (∀ (now : ℚ) (cb : CircuitBreaker),
      cb.state = .HALF_OPEN →
      (execute cfg now false cb).1 = .completed false ∧
      (execute cfg now false cb).2.state = .OPEN ∧
      (execute cfg now false cb).2.next_attempt_time = now + cfg.timeout_ms ∧
      (execute cfg now false cb).2.successes = 0) ∧
    (∀ (now : ℚ) (n : ℕ) (cb : CircuitBreaker),
      cb.state = .HALF_OPEN → cb.successes + n = cfg.success_threshold → 1 ≤ n →
      (runSuccesses cfg now n cb).state = .CLOSED) := by
  refine ⟨?_, ?_, ?_, ?_, ?_⟩
  · intro now r cb ho hlt
    simp [execute, ho, hlt]
  · intro now r cb ho hle
    cases r <;> simp [execute, ho, not_lt.mpr hle]
  · intro now cb ho hle hsucc
    have h1 : transitionTo cfg now cb .HALF_OPEN = { cb with state := .HALF_OPEN } := by
      simp [transitionTo, ho]
    have h2 : execute cfg now true cb =
        (.completed true, onSuccess cfg now { cb with state := .HALF_OPEN }) := by
      simp [execute, ho, not_lt.mpr hle, h1]
    have hni : ¬ cfg.success_threshold ≤ cb.successes + 1 := by omega
    have h3 : onSuccess cfg now { cb with state := .HALF_OPEN } =
        { cb with state := .HALF_OPEN, failures := 0, successes := cb.successes + 1 } := by
      simp [onSuccess, hni]
    rw [h2, h3]
    exact ⟨rfl, rfl⟩
  · intro now cb hho
    refine ⟨?_, ?_, ?_, ?_⟩ <;>
      simp [execute, onFailure, transitionTo, hho]
  · intro now n cb hho hsum hn
    exact runSuccesses_closes cfg now n cb hho hsum hn

/-- C6 (witness): the protocol theorem applied at concrete states: part
(1) at an OPEN breaker before its retry time, and part (4) at a
HALF_OPEN breaker that fails. -/
theorem circuitBreaker_protocol_witness :
    execute ⟨5, 60000, 2⟩ 50 true ⟨.OPEN, 5, 0, none, 100⟩ =
      (.failFast, ⟨.OPEN, 5, 0, none, 100⟩) ∧
    (execute ⟨5, 60000, 2⟩ 200 false ⟨.HALF_OPEN, 0, 1, none, 100⟩).2.next_attempt_time =
      200 + 60000 := by
  constructor
  · exact (circuitBreaker_protocol ⟨5, 60000, 2⟩).1 50 true
      ⟨.OPEN, 5, 0, none, 100⟩ rfl (by norm_num)
  · exact ((circuitBreaker_protocol ⟨5, 60000, 2⟩).2.2.2.1 200
      ⟨.HALF_OPEN, 0, 1, none, 100⟩ rfl).2.2.1

end RateLimiter

namespace RateLimiter

/-!
### Redis client script caching and retry

Control-flow embedding of RedisClient.checkTokenBucket (redis-client.ts
lines 182-241) and RedisClient.loadScripts (lines 126-177).  The state
records the scriptsLoaded instance flag, whether scriptSHAs holds the
TOKEN_BUCKET entry, and whether the server has the script resident.
Load failures and non-NOSCRIPT store errors raise and end the call, so
only the non-raising paths appear in the recursion. -/

structure ScriptClientState where
  scriptsLoaded : Bool
  shaCached : Bool
  serverHasScript : Bool
  deriving Repr, DecidableEq

/-- loadScripts, success path: returns at once when scriptsLoaded is
already true; otherwise SCRIPT LOAD installs the script server-side,
caches its SHA and sets scriptsLoaded. -/
def loadScripts (st : ScriptClientState) : ScriptClientState :=
  if st.scriptsLoaded then st
  else { scriptsLoaded := true, shaCached := true, serverHasScript := true }

/-- checkTokenBucket with explicit fuel for the recursion depth: `none`
means the recursion consumed all fuel without producing a reply.  A
missing SHA cache entry calls loadScripts and recurses; a NOSCRIPT
error deletes the cache entry, calls loadScripts and recurses. -/
def checkTokenBucketFuel : ℕ → ScriptClientState → Option ScriptClientState
  | 0, _ => none
  | n + 1, st =>
    if st.shaCached = false then
      checkTokenBucketFuel n (loadScripts st)
    else if st.serverHasScript then some st
    else
      checkTokenBucketFuel n (loadScripts { st with shaCached := false })

lemma checkTokenBucketFuel_stuck :
    ∀ n : ℕ, checkTokenBucketFuel n ⟨true, false, false⟩ = none := by
  intro n
  induction n with
  | zero => rfl
  | succ k ih =>
    simpa [checkTokenBucketFuel, loadScripts] using ih

/-- C5 (code bug evidence).  After a successful initial load
(scriptsLoaded = true, SHA cached) a NOSCRIPT reply — the server lost
the script, for example after SCRIPT FLUSH or a failover — makes
checkTokenBucket delete the cached SHA and call loadScripts, which
returns immediately because scriptsLoaded is still true; the call then
recurses with unchanged state and never terminates, for any recursion
depth.  A fresh client by contrast loads the script and succeeds in two
steps. -/
theorem checkTokenBucket_noscript_diverges :
    (∀ n : ℕ, checkTokenBucketFuel n ⟨true, true, false⟩ = none) ∧
    checkTokenBucketFuel 2 ⟨false, false, false⟩ = some ⟨true, true, true⟩ := by
  constructor
  · intro n
    cases n with
    | zero => rfl
    | succ k =>
      simpa [checkTokenBucketFuel, loadScripts] using checkTokenBucketFuel_stuck k
  · rfl

end RateLimiter

namespace RateLimiter

/-!
### Identity extraction

Embedding of extractIdentity, extractFromJWT, extractFromAPIKey,
extractFromHeaders and getClientIP (src/types/index.ts bundle, lines
293-454).  Header values are optional strings (the typeof guards map
non-string values to absent); `decode` stands for jwt.verify / jwt.decode
on the extracted token, returning none when decoding throws or yields
null. -/

structure JWTPayload where
  tenant_id : Option String
  tenantId : Option String
  user_id : Option String
  userId : Option String
  sub : Option String
  deriving Repr, DecidableEq

/-- JavaScript `a || b` over optional string claims: absent claims and
the empty string are falsy. -/
def jsOrS : Option String → Option String → Option String
  | some str, b => if str = "" then b else some str
  | none, b => b

/-- Lines 371-374: tenant_id, then tenantId, then the literal default. -/
def jwtTenantId (p : JWTPayload) : String :=
  match jsOrS p.tenant_id (jsOrS p.tenantId none) with
  | some str => str
  | none => "default"

/-- Lines 375-379: user_id, then userId, then sub, then the literal. -/
def jwtUserId (p : JWTPayload) : String :=
  match jsOrS p.user_id (jsOrS p.userId (jsOrS p.sub none)) with
  | some str => str
  | none => "unknown"

structure Req where
  authHeader : Option String
  xApiKey : Option String
  xTenantId : Option String
  xUserId : Option String
  xForwardedFor : Option String
  xRealIp : Option String
  reqIp : Option String
  socketRemoteAddress : Option String
  path : String
  deriving Repr, DecidableEq

def getClientIP (req : Req) : String :=
  if truthyS req.xForwardedFor then
    (((req.xForwardedFor.getD "").splitOn ",").headD "").trim
  else if truthyS req.xRealIp then req.xRealIp.getD ""
  else
    match jsOrS req.reqIp (jsOrS req.socketRemoteAddress none) with
    | some str => str
    | none => "unknown"

/-- Token extraction from the authorization header value. -/
def bearerToken (h : String) : String :=
  if h.startsWith "Bearer " then h.drop 7 else h

def extractFromJWT (decode : String → Option JWTPayload) (req : Req) :
    Option (String × String) :=
  match req.authHeader with
  | none => none
  | some h =>
    if h = "" then none
    else
      let token := bearerToken h
      if token = "" then none
      else
        match decode token with
        | none => none
        | some payload => some (jwtTenantId payload, jwtUserId payload)

def extractFromAPIKey (req : Req) : Option (String × String) :=
  match req.xApiKey with
  | none => none
  | some apiKey =>
    if apiKey = "" then none
    else
      let parts := apiKey.splitOn "."
      if 2 ≤ parts.length then some (parts.headD "", (parts.drop 1).headD "")
      else some (apiKey, "default")

def extractFromHeaders (req : Req) : Option (String × String) :=
  if truthyS req.xTenantId && truthyS req.xUserId then
    some (req.xTenantId.getD "", req.xUserId.getD "")
  else if truthyS req.xTenantId then some (req.xTenantId.getD "", "default")
  else none

/-- The regex replace of non-alphanumerics by underscores applied to the
anonymous ip identity. -/
def sanitizeIp (s : String) : String :=
  s.map fun ch => if ch.isAlphanum then ch else '_'

structure RequestIdentity where
  tenant_id : String
  user_id : String
  endpoint : String
  ip_address : Option String
  deriving Repr, DecidableEq

/-- extractIdentity (types bundle lines 293-335): JWT, then API key,
then custom headers, then the ip-derived anonymous identity. -/
def extractIdentity (decode : String → Option JWTPayload) (req : Req) :
    RequestIdentity :=
  match extractFromJWT decode req with
  | some tu => { tenant_id := tu.1, user_id := tu.2, endpoint := req.path,
                 ip_address := some (getClientIP req) }
  | none =>
    match extractFromAPIKey req with
    | some tu => { tenant_id := tu.1, user_id := tu.2, endpoint := req.path,
                   ip_address := some (getClientIP req) }
    | none =>
      match extractFromHeaders req with
      | some tu => { tenant_id := tu.1, user_id := tu.2, endpoint := req.path,
                     ip_address := some (getClientIP req) }
      | none =>
        let ip := getClientIP req
        { tenant_id := "anonymous", user_id := "ip_" ++ sanitizeIp ip,
          endpoint := req.path, ip_address := some ip }

/-- C9.  A decodable bearer token whose payload lacks tenant claims does
not fall through to the API-key, header or ip sources: the identity
comes from the JWT branch with tenant_id "default" (and user_id
"unknown" when the user claims are also absent), whatever the other
request fields hold. -/
theorem extractIdentity_jwt_default
    (decode : String → Option JWTPayload) (req : Req) (h : String) (p : JWTPayload)
    (hauth : req.authHeader = some h) (hne : h ≠ "")
    (htok : bearerToken h ≠ "") (hdec : decode (bearerToken h) = some p)
    (ht1 : p.tenant_id = none) (ht2 : p.tenantId = none) :
    extractIdentity decode req =
      { tenant_id := "default", user_id := jwtUserId p, endpoint := req.path,
        ip_address := some (getClientIP req) } ∧
    (p.user_id = none → p.userId = none → p.sub = none → jwtUserId p = "unknown") := by
  constructor
  · have hjwt : extractFromJWT decode req = some ("default", jwtUserId p) := by
      simp [extractFromJWT, hauth, hne, htok, hdec, jwtTenantId, ht1, ht2, jsOrS]
    simp [extractIdentity, hjwt]
  · intro h1 h2 h3
    simp [jwtUserId, jsOrS, h1, h2, h3]

/-- C9 (witness input): a decoder yielding a payload with no claims, and
a request that also carries an API key and identity headers. -/
def jwtWitnessDecode : String → Option JWTPayload :=
  fun _ => some ⟨none, none, none, none, none⟩

def jwtWitnessReq : Req :=
  { authHeader := some "Bearer token123", xApiKey := some "acme.bob.secret",
    xTenantId := some "acme", xUserId := some "bob", xForwardedFor := none,
    xRealIp := none, reqIp := some "1.2.3.4", socketRemoteAddress := none,
    path := "/api/search" }

/-- C9 (witness): the theorem applied at the witness request. -/
theorem extractIdentity_jwt_default_witness :
    extractIdentity jwtWitnessDecode jwtWitnessReq =
      { tenant_id := "default", user_id := "unknown", endpoint := "/api/search",
        ip_address := some (getClientIP jwtWitnessReq) } := by
  have htok : bearerToken "Bearer token123" ≠ "" := by
    unfold bearerToken
    split_ifs
    · decide
    · decide
  have hmain := extractIdentity_jwt_default jwtWitnessDecode jwtWitnessReq
    "Bearer token123" ⟨none, none, none, none, none⟩ rfl (by decide) htok rfl rfl rfl
  rw [hmain.1, hmain.2 rfl rfl rfl]
  rfl

end RateLimiter
